import Mathlib

/-!
# Verification of the CCXT-MCP cache module (`src/cache.ts`)

A shallow embedding of the `CacheManager` class from `src/cache.ts`:
a TTL-based cache persisting one JSON file per key in a cache directory,
plus a `.metadata.json` bookkeeping file.

Modelling conventions:
* JavaScript JSON values are the inductive type `Json` (numbers as `Int`,
  which covers every value the claims exercise).
* Timestamps (`Date.now()`) and TTLs are `Int` milliseconds; each operation
  receives the current time `now` explicitly.
* The cache directory is an association list from file name to file content.
  A file's content is modelled post-parse: either the serialization of a
  `CacheEntry` (which `JSON.parse` recovers exactly) or `corrupt` content on
  which `JSON.parse` throws.  The distinguished `.metadata.json` file, which
  every entry-iterating operation excludes by exact name, is modelled as a
  separate field of the state.
* `fs.writeFileSync` failure (disk full, permissions) is injected through the
  `writeFail` flag of `CacheManager.setAux`; `CacheManager.set` is the
  non-failing instance.
* A method returning `void` in TypeScript returns `none` in the `returned`
  field of its result; internal locals that the source only logs (such as
  `deletedCount`) are exposed as separate result fields so theorems can speak
  about them.
-/

set_option autoImplicit false

namespace CcxtMcp

/-- JavaScript JSON values (numbers restricted to integers). -/
inductive Json where
  | null : Json
  | bool : Bool → Json
  | num : Int → Json
  | str : String → Json
  | arr : List Json → Json
  | obj : List (String × Json) → Json

/-- `x !== null`, the one comparison the source makes on cached data. -/
def Json.isNull : Json → Bool
  | Json.null => true
  | _ => false

/-- Hex digit character, lowercase (as Node's `digest("hex")` emits). -/
def hexChar (n : Nat) : Char :=
  if n < 10 then Char.ofNat (48 + n) else Char.ofNat (87 + n)

/-- Escape one character the way `JSON.stringify` escapes string contents. -/
def escChar (c : Char) : String :=
  if c = '"' then "\\\""
  else if c = '\\' then "\\\\"
  else if c = Char.ofNat 8 then "\\b"
  else if c = Char.ofNat 9 then "\\t"
  else if c = Char.ofNat 10 then "\\n"
  else if c = Char.ofNat 12 then "\\f"
  else if c = Char.ofNat 13 then "\\r"
  else if c.toNat < 32 then
    "\\u00" ++ String.mk [hexChar (c.toNat / 16), hexChar (c.toNat % 16)]
  else String.mk [c]

/-- `JSON.stringify` of a string: quoted, with contents escaped. -/
def jsonQuote (s : String) : String :=
  "\"" ++ String.join (s.data.map escChar) ++ "\""

mutual

/-- `JSON.stringify` (no spacing), on the `Json` model. -/
def Json.stringify : Json → String
  | Json.null => "null"
  | Json.bool b => if b then "true" else "false"
  | Json.num n => toString n
  | Json.str s => jsonQuote s
  | Json.arr xs => "[" ++ stringifyArr xs ++ "]"
  | Json.obj fs => "\x7b" ++ stringifyObj fs ++ "\x7d"

/-- Comma-separated serialization of array elements. -/
def stringifyArr : List Json → String
  | [] => ""
  | [x] => Json.stringify x
  | x :: y :: xs => Json.stringify x ++ "," ++ stringifyArr (y :: xs)

/-- Comma-separated serialization of object properties, in insertion order
(as `JSON.stringify` serializes non-integer-keyed properties). -/
def stringifyObj : List (String × Json) → String
  | [] => ""
  | [(k, v)] => jsonQuote k ++ ":" ++ Json.stringify v
  | (k, v) :: f :: fs =>
      jsonQuote k ++ ":" ++ Json.stringify v ++ "," ++ stringifyObj (f :: fs)

end

/-- UTF-8 bytes of one character (Node's `hash.update(s)` default encoding). -/
def utf8Bytes (c : Char) : List Nat :=
  let n := c.toNat
  if n < 128 then [n]
  else if n < 2048 then [192 + n / 64, 128 + n % 64]
  else if n < 65536 then [224 + n / 4096, 128 + (n / 64) % 64, 128 + n % 64]
  else [240 + n / 262144, 128 + (n / 4096) % 64, 128 + (n / 64) % 64, 128 + n % 64]

/-- UTF-8 bytes of a string. -/
def strBytes (s : String) : List Nat :=
  (s.data.map utf8Bytes).flatten

/-! ## SHA-256 (FIPS 180-4), over byte lists, 32-bit words as `Nat` mod 2^32 -/

/-- 2^32, the word modulus. -/
def M32 : Nat := 4294967296

/-- Rotate a 32-bit word right by `n`. -/
def rotr (n x : Nat) : Nat := (x >>> n ||| x <<< (32 - n)) % M32

/-- SHA-256 Σ₀. -/
def bigS0 (x : Nat) : Nat := Nat.xor (rotr 2 x) (Nat.xor (rotr 13 x) (rotr 22 x))

/-- SHA-256 Σ₁. -/
def bigS1 (x : Nat) : Nat := Nat.xor (rotr 6 x) (Nat.xor (rotr 11 x) (rotr 25 x))

/-- SHA-256 σ₀. -/
def smallS0 (x : Nat) : Nat := Nat.xor (rotr 7 x) (Nat.xor (rotr 18 x) (x >>> 3))

/-- SHA-256 σ₁. -/
def smallS1 (x : Nat) : Nat := Nat.xor (rotr 17 x) (Nat.xor (rotr 19 x) (x >>> 10))

/-- SHA-256 Ch. -/
def chFn (x y z : Nat) : Nat := Nat.xor (Nat.land x y) (Nat.land (Nat.xor x (M32 - 1)) z)

/-- SHA-256 Maj. -/
def majFn (x y z : Nat) : Nat :=
  Nat.xor (Nat.land x y) (Nat.xor (Nat.land x z) (Nat.land y z))

/-- The 64 SHA-256 round constants. -/
def K256 : List Nat :=
  [1116352408, 1899447441, 3049323471, 3921009573, 961987163,
   1508970993, 2453635748, 2870763221, 3624381080, 310598401,
   607225278, 1426881987, 1925078388, 2162078206, 2614888103,
   3248222580, 3835390401, 4022224774, 264347078, 604807628,
   770255983, 1249150122, 1555081692, 1996064986, 2554220882,
   2821834349, 2952996808, 3210313671, 3336571891, 3584528711,
   113926993, 338241895, 666307205, 773529912, 1294757372,
   1396182291, 1695183700, 1986661051, 2177026350, 2456956037,
   2730485921, 2820302411, 3259730800, 3345764771, 3516065817,
   3600352804, 4094571909, 275423344, 430227734, 506948616,
   659060556, 883997877, 958139571, 1322822218, 1537002063,
   1747873779, 1955562222, 2024104815, 2227730452, 2361852424,
   2428436474, 2756734187, 3204031479, 3329325298]

/-- The SHA-256 initial hash value. -/
def H256 : List Nat :=
  [1779033703, 3144134277, 1013904242, 2773480762, 1359893119,
   2600822924, 528734635, 1541459225]

/-- Big-endian bytes of a value, `n` bytes wide. -/
def beBytes : Nat → Nat → List Nat
  | 0, _ => []
  | n + 1, v => beBytes n (v / 256) ++ [v % 256]

/-- Group bytes into 32-bit big-endian words. -/
def toWords : List Nat → List Nat
  | b0 :: b1 :: b2 :: b3 :: rest =>
      (((b0 * 256 + b1) * 256 + b2) * 256 + b3) :: toWords rest
  | _ => []

/-- One message-schedule extension step: append word `W[t]` for `t = w.length`. -/
def schedStep (w : List Nat) : List Nat :=
  let i := w.length
  w ++ [(smallS1 (w.getD (i - 2) 0) + w.getD (i - 7) 0 +
         smallS0 (w.getD (i - 15) 0) + w.getD (i - 16) 0) % M32]

/-- Iterate the schedule extension `n` times. -/
def sched : Nat → List Nat → List Nat
  | 0, w => w
  | n + 1, w => sched n (schedStep w)

/-- One compression round; the state is the word list `[a,b,c,d,e,f,g,h]` and
`kw` is `K[t] + W[t]`. -/
def roundFn (s : List Nat) (kw : Nat) : List Nat :=
  match s with
  | [a, b, c, d, e, f, g, hh] =>
      let t1 := (hh + bigS1 e + chFn e f g + kw) % M32
      let t2 := (bigS0 a + majFn a b c) % M32
      [(t1 + t2) % M32, a, b, c, (d + t1) % M32, e, f, g]
  | s => s

/-- Compress one 64-byte block into the running hash. -/
def compressBlock (h : List Nat) (block : List Nat) : List Nat :=
  let w := sched 48 (toWords block)
  let kws := List.zipWith (fun k wi => (k + wi) % M32) K256 w
  let s := kws.foldl roundFn h
  List.zipWith (fun x y => (x + y) % M32) h s

/-- Split a byte list into 64-byte blocks (`fuel` bounds the recursion). -/
def chunks64 : Nat → List Nat → List (List Nat)
  | 0, _ => []
  | _, [] => []
  | fuel + 1, l => l.take 64 :: chunks64 fuel (l.drop 64)

/-- SHA-256 padding: `0x80`, zeros to 56 mod 64, 8-byte big-endian bit length. -/
def padMsg (msg : List Nat) : List Nat :=
  msg ++ [128] ++ List.replicate ((119 - msg.length % 64) % 64) 0 ++
    beBytes 8 (8 * msg.length)

/-- SHA-256 digest (32 bytes) of a byte list. -/
def sha256 (msg : List Nat) : List Nat :=
  let padded := padMsg msg
  let hf := (chunks64 padded.length padded).foldl compressBlock H256
  (hf.map (beBytes 4)).flatten

/-- Lowercase hex string of a byte list, as Node's `digest("hex")`. -/
def hexDigest (bytes : List Nat) : String :=
  String.join (bytes.map (fun b => String.mk [hexChar (b / 16), hexChar (b % 16)]))

/-- `crypto.createHash("sha256").update(s).digest("hex")` on a string. -/
def sha256hex (s : String) : String := hexDigest (sha256 (strBytes s))

/-- `CacheManager.generateCacheKey`: serializes
`{namespace, identifier, params: params || \x7b\x7d}` with `JSON.stringify`
(property order: `namespace`, `identifier`, `params`; `params` properties in
insertion order), hashes with SHA-256, and returns
`namespace_identifier_hexdigest`.  `params` is modelled as an insertion-ordered
association list, exactly what `JSON.stringify` consumes of a `Record`. -/
def generateCacheKey (ns ident : String) (params : Option (List (String × Json))) :
    String :=
  let dataToHash := Json.stringify (Json.obj
    [("namespace", Json.str ns), ("identifier", Json.str ident),
     ("params", Json.obj (params.getD []))])
  ns ++ "_" ++ ident ++ "_" ++ sha256hex dataToHash

/-! ## Cache state and file-system primitives -/

/-- One cached result as persisted in an entry file (interface `CacheEntry`
of `src/cache.ts`): the data, the write timestamp (`Date.now()`), and the
time-to-live in milliseconds. -/
structure CacheEntry where
  data : Json
  timestamp : Int
  ttl : Int

/-- Content of one file in the cache directory, modelled post-parse:
either bytes on which `JSON.parse` throws (`corrupt`), or the
serialization of a `CacheEntry`, which `JSON.parse` recovers exactly. -/
inductive FileData where
  | corrupt : FileData
  | entry : CacheEntry → FileData

/-- Content of `.metadata.json` (interface `CacheMetadata`). -/
structure CacheMetadata where
  totalEntries : Nat
  lastCleanup : Int
deriving DecidableEq

/-- The cache directory: entry files as an association list from file name to
content, plus the distinguished `.metadata.json` file (`none` when absent),
which every entry-iterating operation excludes by exact name. -/
structure CacheState where
  files : List (String × FileData)
  meta : Option CacheMetadata

/-- `fs.existsSync` within the cache directory. -/
def fsExists (fs : List (String × FileData)) (name : String) : Bool :=
  fs.any (fun f => f.1 == name)

/-- `fs.readFileSync` + `JSON.parse` of a file, `none` when absent: the
content associated with the first file of that name. -/
def fsLookup : List (String × FileData) → String → Option FileData
  | [], _ => none
  | f :: fs, name => if f.1 == name then some f.2 else fsLookup fs name

/-- `fs.writeFileSync`: overwrite the named file, or create it. -/
def fsWrite (fs : List (String × FileData)) (name : String) (d : FileData) :
    List (String × FileData) :=
  if fsExists fs name then fs.map (fun f => if f.1 == name then (name, d) else f)
  else fs ++ [(name, d)]

/-- `fs.unlinkSync`: remove the named file. -/
def fsRemove (fs : List (String × FileData)) (name : String) :
    List (String × FileData) :=
  fs.filter (fun f => !(f.1 == name))

namespace CacheManager

/-- `getCacheFilePath`, relative to the cache directory. -/
def getCacheFilePath (key : String) : String := key ++ ".json"

/-- One list starts with another (character-wise). -/
def listStartsWith : List Char → List Char → Bool
  | [], _ => true
  | _ :: _, [] => false
  | c :: cs, d :: ds => c == d && listStartsWith cs ds

/-- The filter `file.endsWith(".json") && file !== ".metadata.json"` used by
`clear`, `cleanup`, `updateMetadata` and `getStats` (`endsWith` spelled out
character-wise); the metadata-file exclusion is realised by keeping
`.metadata.json` out of `CacheState.files`. -/
def isEntryFileName (name : String) : Bool :=
  listStartsWith ".json".data.reverse name.data.reverse

/-- `CacheManager.delete`: unlink the key's file if it exists; no-op
otherwise.  Errors are caught and logged, but no step here can fail in the
model. -/
def delete (st : CacheState) (key : String) : CacheState :=
  if fsExists st.files (getCacheFilePath key) then
    { st with files := fsRemove st.files (getCacheFilePath key) }
  else st

/-- `CacheManager.get`: return the JS value the method returns (`null` on
miss, which is also the sentinel for an absent value) together with the state
after the call.  A missing file or a parse failure (caught) yields `null`; an
entry with `now - timestamp > ttl` (strict) is deleted and yields `null`;
otherwise the stored `data` is returned unchanged. -/
def get (st : CacheState) (now : Int) (key : String) : Json × CacheState :=
  match fsLookup st.files (getCacheFilePath key) with
  | none => (Json.null, st)
  | some FileData.corrupt => (Json.null, st)
  | some (FileData.entry e) =>
      if now - e.timestamp > e.ttl then (Json.null, delete st key)
      else (e.data, st)

/-- The entry-file count `readdirSync` + filter computes. -/
def countEntryFiles (fs : List (String × FileData)) : Nat :=
  (fs.filter (fun f => isEntryFileName f.1)).length

/-- `CacheManager.updateMetadata`: recount entry files and overwrite
`.metadata.json`. -/
def updateMetadata (st : CacheState) (now : Int) : CacheState :=
  { st with meta := some { totalEntries := countEntryFiles st.files, lastCleanup := now } }

/-- `ttl || this.defaultTTL`: an omitted or zero (falsy) TTL argument falls
back to the default. -/
def ttlOrDefault (defaultTTL : Int) (ttl : Option Int) : Int :=
  match ttl with
  | none => defaultTTL
  | some t => if t == 0 then defaultTTL else t

/-- `CacheManager.set` with the outcome of `fs.writeFileSync` made explicit:
when the write throws (`writeFail = true`) the `catch` only logs, so the
method returns normally with the state unchanged (`updateMetadata` is skipped
because it sits after the write inside the `try`).  On success the entry
`{data, timestamp: now, ttl: ttl || defaultTTL}` is written and the metadata
updated. -/
def setAux (writeFail : Bool) (defaultTTL : Int) (st : CacheState) (now : Int)
    (key : String) (data : Json) (ttl : Option Int) : CacheState :=
  if writeFail then st
  else
    let entry : CacheEntry :=
      { data := data, timestamp := now, ttl := ttlOrDefault defaultTTL ttl }
    let st1 := { st with files := fsWrite st.files (getCacheFilePath key) (FileData.entry entry) }
    updateMetadata st1 now

/-- `CacheManager.set` on a healthy file system. -/
def set (defaultTTL : Int) (st : CacheState) (now : Int) (key : String)
    (data : Json) (ttl : Option Int) : CacheState :=
  setAux false defaultTTL st now key data ttl

/-- Result of a `void` method that internally counts deletions: `state` after
the call, `returned` is the value handed back to the caller (`none` encodes
`undefined`, the return value of a `void` method), and `deletedCount` is the
internal counter that the source only logs. -/
structure OpResult where
  state : CacheState
  returned : Option Nat
  deletedCount : Nat

/-- The `for` loop of `clear`: unlink every entry file, counting deletions. -/
def clearLoop : List (String × FileData) → List (String × FileData) × Nat
  | [] => ([], 0)
  | f :: rest =>
      let (rest', n) := clearLoop rest
      if isEntryFileName f.1 then (rest', n + 1) else (f :: rest', n)

/-- `CacheManager.clear`: remove every entry file (every `.json` file other
than `.metadata.json`), update metadata, log the count, return nothing. -/
def clear (st : CacheState) (now : Int) : OpResult :=
  { state := updateMetadata { st with files := (clearLoop st.files).1 } now,
    returned := none,
    deletedCount := (clearLoop st.files).2 }

/-- Whether `cleanup`'s loop deletes a file: an entry file that is unparsable
(the inner `catch`), or whose age strictly exceeds its `ttl`. -/
def cleanupRemoves (now : Int) (f : String × FileData) : Bool :=
  isEntryFileName f.1 &&
    (match f.2 with
     | FileData.corrupt => true
     | FileData.entry e => decide (now - e.timestamp > e.ttl))

/-- The `for` loop of `cleanup`. -/
def cleanupLoop (now : Int) : List (String × FileData) → List (String × FileData) × Nat
  | [] => ([], 0)
  | f :: rest =>
      let (rest', n) := cleanupLoop now rest
      if cleanupRemoves now f then (rest', n + 1) else (f :: rest', n)

/-- `CacheManager.cleanup`: delete expired and unparsable entry files; update
metadata only when something was deleted; log the count, return nothing. -/
def cleanup (st : CacheState) (now : Int) : OpResult :=
  { state :=
      if (cleanupLoop now st.files).2 > 0 then
        updateMetadata { st with files := (cleanupLoop now st.files).1 } now
      else { st with files := (cleanupLoop now st.files).1 },
    returned := none,
    deletedCount := (cleanupLoop now st.files).2 }

/-- The record `getStats` returns. -/
structure CacheStats where
  totalEntries : Nat
  cacheDir : String
  defaultTTL : Int
deriving DecidableEq

/-- `CacheManager.getStats`: recount entry files from the directory listing. -/
def getStats (cacheDir : String) (defaultTTL : Int) (st : CacheState) : CacheStats :=
  { totalEntries := countEntryFiles st.files, cacheDir := cacheDir,
    defaultTTL := defaultTTL }

/-- `CacheManager.getOrSet`.  The producer (`operation`) is an opaque stateful
computation over a producer-owned state `σ` (e.g. an invocation counter) that
either fails with an error of type `ε` or yields a JSON result; it advances
`σ` either way.  The method returns the `get` result when it is non-`null`
(`cached !== null`); otherwise it invokes the producer, propagating a failure
unchanged, and on success stores the result with `set` before returning it.
`tGet`/`tSet` are `Date.now()` at the read and at the write. -/
def getOrSet {σ ε : Type} (defaultTTL : Int) (st : CacheState) (tGet tSet : Int)
    (key : String) (operation : σ → Except ε Json × σ) (ps : σ)
    (ttl : Option Int) : Except ε Json × CacheState × σ :=
  let (cached, st1) := get st tGet key
  if cached.isNull then
    match operation ps with
    | (Except.error e, ps1) => (Except.error e, st1, ps1)
    | (Except.ok result, ps1) =>
        (Except.ok result, set defaultTTL st1 tSet key result ttl, ps1)
  else (Except.ok cached, st1, ps)

end CacheManager


/-! ## Helper lemmas about the file-system primitives -/

theorem fsLookup_cons (f : String × FileData) (fs : List (String × FileData))
    (n : String) :
    fsLookup (f :: fs) n = if f.1 == n then some f.2 else fsLookup fs n := rfl

theorem fsExists_cons (f : String × FileData) (fs : List (String × FileData))
    (n : String) :
    fsExists (f :: fs) n = (f.1 == n || fsExists fs n) := by
  simp [fsExists, List.any_cons]

theorem fsLookup_map_replace (fs : List (String × FileData)) (n : String)
    (d : FileData) (h : fsExists fs n = true) :
    fsLookup (fs.map (fun f => if f.1 == n then (n, d) else f)) n = some d := by
  induction fs with
  | nil => simp [fsExists] at h
  | cons f rest ih =>
    by_cases hf : (f.1 == n) = true
    · simp only [List.map_cons, if_pos hf, fsLookup_cons]
      simp
    · rw [fsExists_cons] at h
      have h' : fsExists rest n = true := by simpa [hf] using h
      simp only [List.map_cons, if_neg hf, fsLookup_cons, if_neg hf]
      exact ih h'

theorem fsLookup_append_new (fs : List (String × FileData)) (n : String)
    (d : FileData) (h : fsExists fs n = false) :
    fsLookup (fs ++ [(n, d)]) n = some d := by
  induction fs with
  | nil => simp [fsLookup, List.find?]
  | cons f rest ih =>
    rw [fsExists_cons] at h
    have hf : (f.1 == n) = false := by
      cases hb : (f.1 == n) <;> simp [hb] at h ⊢
    have h' : fsExists rest n = false := by simpa [hf] using h
    rw [List.cons_append, fsLookup_cons, if_neg (by simp [hf])]
    exact ih h'

theorem fsLookup_fsWrite_self (fs : List (String × FileData)) (n : String)
    (d : FileData) :
    fsLookup (fsWrite fs n d) n = some d := by
  unfold fsWrite
  by_cases h : fsExists fs n = true
  · rw [if_pos h]
    exact fsLookup_map_replace fs n d h
  · rw [if_neg (by simpa using h)]
    exact fsLookup_append_new fs n d (by simpa using h)

theorem fsLookup_fsRemove_self (fs : List (String × FileData)) (n : String) :
    fsLookup (fsRemove fs n) n = none := by
  induction fs with
  | nil => rfl
  | cons f rest ih =>
    by_cases hf : (f.1 == n) = true
    · simpa [fsRemove, List.filter_cons, hf] using ih
    · simpa [fsRemove, List.filter_cons, hf, fsLookup_cons] using ih

theorem fsLookup_fsRemove_other (fs : List (String × FileData)) (n m : String)
    (hmn : m ≠ n) :
    fsLookup (fsRemove fs n) m = fsLookup fs m := by
  induction fs with
  | nil => rfl
  | cons f rest ih =>
    by_cases hf : (f.1 == n) = true
    · have hfn : f.1 = n := by simpa using hf
      have hm : (f.1 == m) = false := by
        simp only [hfn, beq_eq_false_iff_ne, ne_eq]
        exact fun hh => hmn hh.symm
      rw [fsRemove, List.filter_cons, if_neg (by simp [hf])]
      rw [fsLookup_cons, if_neg (by simp [hm])]
      exact ih
    · rw [fsRemove, List.filter_cons, if_pos (by simp [hf])]
      rw [fsLookup_cons, fsLookup_cons]
      by_cases hm : (f.1 == m) = true
      · simp [hm]
      · simp only [if_neg hm]
        exact ih

theorem fsExists_of_fsLookup (fs : List (String × FileData)) (n : String)
    (d : FileData) (h : fsLookup fs n = some d) : fsExists fs n = true := by
  induction fs with
  | nil => simp [fsLookup] at h
  | cons f rest ih =>
    rw [fsLookup_cons] at h
    rw [fsExists_cons]
    by_cases hf : (f.1 == n) = true
    · simp [hf]
    · rw [if_neg hf] at h
      simp [hf, ih h]

theorem cleanupLoop_eq (now : Int) (fs : List (String × FileData)) :
    CacheManager.cleanupLoop now fs =
      (fs.filter (fun f => !CacheManager.cleanupRemoves now f),
       (fs.filter (CacheManager.cleanupRemoves now)).length) := by
  induction fs with
  | nil => rfl
  | cons f rest ih =>
    simp only [CacheManager.cleanupLoop, ih, List.filter_cons]
    by_cases h : CacheManager.cleanupRemoves now f = true <;> simp [h]

theorem clearLoop_eq (fs : List (String × FileData)) :
    CacheManager.clearLoop fs =
      (fs.filter (fun f => !CacheManager.isEntryFileName f.1),
       (fs.filter (fun f => CacheManager.isEntryFileName f.1)).length) := by
  induction fs with
  | nil => rfl
  | cons f rest ih =>
    simp only [CacheManager.clearLoop, ih, List.filter_cons]
    by_cases h : CacheManager.isEntryFileName f.1 = true <;> simp [h]


/-! ## Behaviour lemmas for the cache operations -/

theorem get_absent (st : CacheState) (now : Int) (k : String)
    (h : fsLookup st.files (CacheManager.getCacheFilePath k) = none) :
    CacheManager.get st now k = (Json.null, st) := by
  unfold CacheManager.get
  rw [h]

theorem get_corrupt (st : CacheState) (now : Int) (k : String)
    (h : fsLookup st.files (CacheManager.getCacheFilePath k) = some FileData.corrupt) :
    CacheManager.get st now k = (Json.null, st) := by
  unfold CacheManager.get
  rw [h]

theorem get_entry (st : CacheState) (now : Int) (k : String) (d : Json)
    (ts tl : Int)
    (h : fsLookup st.files (CacheManager.getCacheFilePath k) =
      some (FileData.entry { data := d, timestamp := ts, ttl := tl })) :
    CacheManager.get st now k =
      if now - ts > tl then (Json.null, CacheManager.delete st k) else (d, st) := by
  unfold CacheManager.get
  rw [h]

theorem set_files (defaultTTL : Int) (st : CacheState) (now : Int) (k : String)
    (d : Json) (ttl : Option Int) :
    (CacheManager.set defaultTTL st now k d ttl).files =
      fsWrite st.files (CacheManager.getCacheFilePath k)
        (FileData.entry { data := d, timestamp := now,
                          ttl := CacheManager.ttlOrDefault defaultTTL ttl }) := rfl


/-! ## Claim theorems -/

/-- C1: for every cache key `k`, every JSON-serializable value `V`, and every
TTL `T > 0`, calling `set(k, V, T)` and then immediately calling `get(k)`
returns a value deep-equal to `V` — the stored data comes back unchanged. -/
theorem set_then_get_returns_value (defaultTTL : Int) (st : CacheState)
    (now : Int) (k : String) (V : Json) (T : Int) (hT : 0 < T) :
    (CacheManager.get (CacheManager.set defaultTTL st now k V (some T)) now k).1 = V := by
  have httl : CacheManager.ttlOrDefault defaultTTL (some T) = T := by
    simp only [CacheManager.ttlOrDefault, beq_iff_eq]
    rw [if_neg (by omega)]
  have hl : fsLookup (CacheManager.set defaultTTL st now k V (some T)).files
      (CacheManager.getCacheFilePath k) =
      some (FileData.entry { data := V, timestamp := now,
                             ttl := CacheManager.ttlOrDefault defaultTTL (some T) }) := by
    rw [set_files]
    exact fsLookup_fsWrite_self _ _ _
  rw [get_entry _ now _ _ _ _ hl, httl, if_neg (by omega)]

/-- C1 witness: concrete round trip at key `k`, value `"v"`, TTL 5000. -/
theorem set_then_get_returns_value_witness :
    0 < (5000 : Int) ∧
    (CacheManager.get
      (CacheManager.set 300000 { files := [], meta := none } 17 "k"
        (Json.str "v") (some 5000)) 17 "k").1 = Json.str "v" :=
  ⟨by decide,
   set_then_get_returns_value 300000 { files := [], meta := none } 17 "k"
     (Json.str "v") 5000 (by decide)⟩

/-- C2: for a key whose on-disk entry exists and parses, if at `get` time
`now - createdAt > ttl` (strict) then `get` returns the absent sentinel and,
as its only side effect, deletes the entry file — the file no longer exists,
every other file is untouched, and the metadata file is untouched; if
`now - createdAt ≤ ttl`, `get` returns the stored data and leaves the state
entirely unchanged. -/
theorem get_purges_expired_entry (st : CacheState) (now : Int) (k : String)
    (e : CacheEntry)
    (hfile : fsLookup st.files (CacheManager.getCacheFilePath k) =
      some (FileData.entry e)) :
    (now - e.timestamp > e.ttl →
      (CacheManager.get st now k).1 = Json.null ∧
      fsLookup (CacheManager.get st now k).2.files
        (CacheManager.getCacheFilePath k) = none ∧
      (∀ m : String, m ≠ CacheManager.getCacheFilePath k →
        fsLookup (CacheManager.get st now k).2.files m = fsLookup st.files m) ∧
      (CacheManager.get st now k).2.meta = st.meta) ∧
    (now - e.timestamp ≤ e.ttl →
      CacheManager.get st now k = (e.data, st)) := by
  have hg := get_entry st now k e.data e.timestamp e.ttl hfile
  have hex : fsExists st.files (CacheManager.getCacheFilePath k) = true :=
    fsExists_of_fsLookup _ _ _ hfile
  have hdel : CacheManager.delete st k =
      { st with files := fsRemove st.files (CacheManager.getCacheFilePath k) } := by
    unfold CacheManager.delete
    rw [if_pos hex]
  constructor
  · intro hexp
    rw [hg, if_pos hexp, hdel]
    refine ⟨rfl, fsLookup_fsRemove_self _ _, ?_, rfl⟩
    intro m hm
    exact fsLookup_fsRemove_other _ _ _ hm
  · intro hlive
    rw [hg, if_neg (by omega)]

/-- C2 witness: an entry written at time 0 with TTL 5, read at time 10, is
reported absent and its file is gone; read at time 3 it yields its data with
the state unchanged. -/
theorem get_purges_expired_entry_witness :
    ((10 : Int) - 0 > 5 ∧
     (CacheManager.get
        { files := [("k.json", FileData.entry
            { data := Json.str "v", timestamp := 0, ttl := 5 })], meta := none }
        10 "k").1 = Json.null ∧
     fsLookup (CacheManager.get
        { files := [("k.json", FileData.entry
            { data := Json.str "v", timestamp := 0, ttl := 5 })], meta := none }
        10 "k").2.files (CacheManager.getCacheFilePath "k") = none) ∧
    ((3 : Int) - 0 ≤ 5 ∧
     CacheManager.get
        { files := [("k.json", FileData.entry
            { data := Json.str "v", timestamp := 0, ttl := 5 })], meta := none }
        3 "k" =
       (Json.str "v",
        { files := [("k.json", FileData.entry
            { data := Json.str "v", timestamp := 0, ttl := 5 })], meta := none })) := by
  have h10 := get_purges_expired_entry
    { files := [("k.json", FileData.entry
        { data := Json.str "v", timestamp := 0, ttl := 5 })], meta := none }
    10 "k" { data := Json.str "v", timestamp := 0, ttl := 5 } rfl
  have h3 := get_purges_expired_entry
    { files := [("k.json", FileData.entry
        { data := Json.str "v", timestamp := 0, ttl := 5 })], meta := none }
    3 "k" { data := Json.str "v", timestamp := 0, ttl := 5 } rfl
  exact ⟨⟨by decide, (h10.1 (by decide)).1, (h10.1 (by decide)).2.1⟩,
         ⟨by decide, h3.2 (by decide)⟩⟩

/-- C5: cache-internal I/O and parse failures never raise to the caller —
an entry file that exists but does not parse makes `get` return the absent
sentinel with no state change and no propagated error, and a failing
underlying file write makes `set` return normally with no state change. -/
theorem internal_failures_absorbed (st : CacheState) (now : Int) (k : String)
    (defaultTTL : Int) (d : Json) (ttl : Option Int)
    (hcorrupt : fsLookup st.files (CacheManager.getCacheFilePath k) =
      some FileData.corrupt) :
    CacheManager.get st now k = (Json.null, st) ∧
    CacheManager.setAux true defaultTTL st now k d ttl = st :=
  ⟨get_corrupt st now k hcorrupt, rfl⟩

/-- C5 witness: a corrupt file for key `k`, and a failing write, at concrete
inputs. -/
theorem internal_failures_absorbed_witness :
    CacheManager.get { files := [("k.json", FileData.corrupt)], meta := none }
      42 "k" =
      (Json.null, { files := [("k.json", FileData.corrupt)], meta := none }) ∧
    CacheManager.setAux true 300000
      { files := [("k.json", FileData.corrupt)], meta := none } 42 "k"
      (Json.str "v") none =
      { files := [("k.json", FileData.corrupt)], meta := none } :=
  internal_failures_absorbed
    { files := [("k.json", FileData.corrupt)], meta := none }
    42 "k" 300000 (Json.str "v") none rfl

/-- C10: `set(k, d, 0)` (and `set` with the TTL omitted) stores an entry whose
`ttl` field is the default TTL, not 0 — `ttl || defaultTTL` treats any falsy
TTL as absent — so the entry is still live at any time within the default TTL
instead of being immediately expired. -/
theorem set_zero_ttl_uses_default (defaultTTL : Int) (st : CacheState)
    (now : Int) (k : String) (d : Json) (t : Option Int) (now2 : Int)
    (ht : t = some 0 ∨ t = none) (hlive : now2 - now ≤ defaultTTL) :
    fsLookup (CacheManager.set defaultTTL st now k d t).files
      (CacheManager.getCacheFilePath k) =
      some (FileData.entry
        { data := d, timestamp := now, ttl := defaultTTL }) ∧
    (CacheManager.get (CacheManager.set defaultTTL st now k d t) now2 k).1 = d := by
  have httl : CacheManager.ttlOrDefault defaultTTL t = defaultTTL := by
    rcases ht with h | h <;> rw [h] <;> rfl
  have hl : fsLookup (CacheManager.set defaultTTL st now k d t).files
      (CacheManager.getCacheFilePath k) =
      some (FileData.entry { data := d, timestamp := now, ttl := defaultTTL }) := by
    rw [set_files, httl]
    exact fsLookup_fsWrite_self _ _ _
  refine ⟨hl, ?_⟩
  rw [get_entry _ now2 _ _ _ _ hl, if_neg (by omega)]

/-- C10 witness: `set("k", "v", 0)` under default TTL 300000, read back at a
time within the default TTL. -/
theorem set_zero_ttl_uses_default_witness :
    ((some 0 : Option Int) = some 0 ∨ (some 0 : Option Int) = none) ∧
    (8 : Int) - 5 ≤ 300000 ∧
    fsLookup (CacheManager.set 300000 { files := [], meta := none } 5 "k"
        (Json.str "v") (some 0)).files
      (CacheManager.getCacheFilePath "k") =
      some (FileData.entry
        { data := Json.str "v", timestamp := 5, ttl := 300000 }) ∧
    (CacheManager.get (CacheManager.set 300000 { files := [], meta := none }
        5 "k" (Json.str "v") (some 0)) 8 "k").1 = Json.str "v" := by
  have h := set_zero_ttl_uses_default 300000 { files := [], meta := none }
    5 "k" (Json.str "v") (some 0) 8 (Or.inl rfl) (by decide)
  exact ⟨Or.inl rfl, by decide, h.1, h.2⟩


theorem getOrSet_eq {σ ε : Type} (defaultTTL : Int) (st : CacheState)
    (tGet tSet : Int) (k : String) (operation : σ → Except ε Json × σ)
    (ps : σ) (ttl : Option Int) :
    CacheManager.getOrSet defaultTTL st tGet tSet k operation ps ttl =
      if (CacheManager.get st tGet k).1.isNull then
        match operation ps with
        | (Except.error e, ps1) => (Except.error e, (CacheManager.get st tGet k).2, ps1)
        | (Except.ok r, ps1) =>
            (Except.ok r,
             CacheManager.set defaultTTL (CacheManager.get st tGet k).2 tSet k r ttl,
             ps1)
      else (Except.ok (CacheManager.get st tGet k).1, (CacheManager.get st tGet k).2, ps) :=
  rfl

/-- C3 amended: two sequential, non-concurrent `getOrSet(k, p, T)` calls
within the TTL window invoke the producer exactly once — the first call
misses, invokes `p`, caches the result via `set` before returning it, and the
second call returns the same value with the cache and producer state
untouched (for any producer) — provided the producer's result is not the JSON
value `null`; a `null` result is indistinguishable from a miss and would be
re-produced. -/
theorem getOrSet_invokes_producer_once (defaultTTL T t1 t2 : Int)
    (st : CacheState) (k : String) {σ σ2 ε : Type}
    (p : σ → Except ε Json × σ) (ps ps1 : σ) (v : Json)
    (q : σ2 → Except ε Json × σ2) (qs : σ2)
    (hmiss : fsLookup st.files (CacheManager.getCacheFilePath k) = none)
    (hp : p ps = (Except.ok v, ps1)) (hv : v.isNull = false)
    (hT : 0 < T) (hwin : t2 - t1 ≤ T) :
    CacheManager.getOrSet defaultTTL st t1 t1 k p ps (some T) =
      (Except.ok v, CacheManager.set defaultTTL st t1 k v (some T), ps1) ∧
    CacheManager.getOrSet defaultTTL
        (CacheManager.set defaultTTL st t1 k v (some T)) t2 t2 k q qs (some T) =
      (Except.ok v, CacheManager.set defaultTTL st t1 k v (some T), qs) := by
  have httl : CacheManager.ttlOrDefault defaultTTL (some T) = T := by
    simp only [CacheManager.ttlOrDefault, beq_iff_eq]
    rw [if_neg (by omega)]
  have hget1 : CacheManager.get st t1 k = (Json.null, st) := get_absent st t1 k hmiss
  have hl : fsLookup (CacheManager.set defaultTTL st t1 k v (some T)).files
      (CacheManager.getCacheFilePath k) =
      some (FileData.entry { data := v, timestamp := t1, ttl := T }) := by
    rw [set_files, httl]
    exact fsLookup_fsWrite_self _ _ _
  have hget2 : CacheManager.get (CacheManager.set defaultTTL st t1 k v (some T)) t2 k =
      (v, CacheManager.set defaultTTL st t1 k v (some T)) := by
    rw [get_entry _ t2 _ _ _ _ hl, if_neg (by omega)]
  constructor
  · rw [getOrSet_eq, hget1]
    simp [Json.isNull, hp]
  · rw [getOrSet_eq, hget2]
    simp [hv]

/-- C3 witness: a counting producer returning `"x"`, two calls at times 10
and 20 under TTL 5000, from the empty cache. -/
theorem getOrSet_invokes_producer_once_witness :
    CacheManager.getOrSet 300000 { files := [], meta := none } 10 10 "k"
        ((fun n => (Except.ok (Json.str "x"), n + 1)) : Nat → Except Unit Json × Nat)
        0 (some 5000) =
      (Except.ok (Json.str "x"),
       CacheManager.set 300000 { files := [], meta := none } 10 "k" (Json.str "x")
         (some 5000), 1) ∧
    CacheManager.getOrSet 300000
        (CacheManager.set 300000 { files := [], meta := none } 10 "k" (Json.str "x")
          (some 5000)) 20 20 "k"
        ((fun n => (Except.ok (Json.str "x"), n + 1)) : Nat → Except Unit Json × Nat)
        1 (some 5000) =
      (Except.ok (Json.str "x"),
       CacheManager.set 300000 { files := [], meta := none } 10 "k" (Json.str "x")
         (some 5000), 1) :=
  getOrSet_invokes_producer_once 300000 5000 10 20 { files := [], meta := none } "k"
    _ 0 1 (Json.str "x") _ 1 rfl rfl rfl (by decide) (by decide)

/-- C3 counterexample: a producer whose fixed value is the JSON value `null`
is invoked by both of two immediate sequential `getOrSet` calls — the counter
ends at 2, not 1 — because the cached `null` is returned through the same
`null` sentinel as a miss. -/
theorem getOrSet_null_producer_invoked_twice :
    (let p : Nat → Except Unit Json × Nat := fun n => (Except.ok Json.null, n + 1)
     let r1 := CacheManager.getOrSet 300000 { files := [], meta := none } 0 0 "k" p 0
       (some 5000)
     let r2 := CacheManager.getOrSet 300000 r1.2.1 1 1 "k" p r1.2.2 (some 5000)
     r2.2.2 = 2 ∧ r2.2.2 ≠ 1) := by
  decide

/-- C4 amended: when the producer fails, `getOrSet` propagates that exact
error to the caller and performs no write — the state after the failed call
is exactly the state left by the initial `get`, which is identical to the
prior state except that an already-expired entry for `k` is purged by that
`get`; in particular, when no entry file for `k` exists the cache state is
fully unchanged. -/
theorem getOrSet_producer_failure_propagates (defaultTTL tGet tSet : Int)
    (st : CacheState) (k : String) {σ ε : Type}
    (p : σ → Except ε Json × σ) (ps ps1 : σ) (err : ε) (ttl : Option Int)
    (hp : p ps = (Except.error err, ps1))
    (hnull : (CacheManager.get st tGet k).1 = Json.null) :
    CacheManager.getOrSet defaultTTL st tGet tSet k p ps ttl =
      (Except.error err, (CacheManager.get st tGet k).2, ps1) ∧
    (fsLookup st.files (CacheManager.getCacheFilePath k) = none →
      (CacheManager.get st tGet k).2 = st) := by
  constructor
  · rw [getOrSet_eq, hnull]
    simp [Json.isNull, hp]
  · intro h
    rw [get_absent st tGet k h]

/-- C4 witness: a failing producer on the empty cache at time 7: the error
comes back unchanged and the state is untouched. -/
theorem getOrSet_producer_failure_propagates_witness :
    CacheManager.getOrSet 300000 { files := [], meta := none } 7 7 "k"
        ((fun n => (Except.error "boom", n + 1)) : Nat → Except String Json × Nat)
        0 none =
      (Except.error "boom",
       (CacheManager.get { files := [], meta := none } 7 "k").2, 1) ∧
    (CacheManager.get { files := [], meta := none } 7 "k").2 =
      ({ files := [], meta := none } : CacheState) :=
  ⟨(getOrSet_producer_failure_propagates 300000 7 7 { files := [], meta := none } "k"
      ((fun n => (Except.error "boom", n + 1)) : Nat → Except String Json × Nat)
      0 1 "boom" none rfl rfl).1,
   (getOrSet_producer_failure_propagates 300000 7 7 { files := [], meta := none } "k"
      ((fun n => (Except.error "boom", n + 1)) : Nat → Except String Json × Nat)
      0 1 "boom" none rfl rfl).2 rfl⟩

/-- C4 counterexample: with an expired entry for `k` on disk and a failing
producer, the error propagates but the cache state is not the same afterward
— the initial `get` inside `getOrSet` purged the expired entry file — so
"the cache state for k ... is the same after the failed call as before it"
is false. -/
theorem getOrSet_failure_purges_expired_cex :
    (let st0 : CacheState :=
       { files := [("k.json", FileData.entry
           { data := Json.str "v", timestamp := 0, ttl := 5 })], meta := none }
     let r := CacheManager.getOrSet 300000 st0 100 100 "k"
       ((fun n => (Except.error (), n + 1)) : Nat → Except Unit Json × Nat) 0 none
     r.1 = Except.error () ∧ r.2.1.files = [] ∧ st0.files.length = 1) :=
  ⟨rfl, rfl, rfl⟩

/-- C9 amended: a live entry whose stored data is the JSON value `null` is
indistinguishable from a miss — `get` returns the very same `null` sentinel
it returns for an absent key — and `getOrSet` invokes the producer despite
the live entry, then overwrites it with the producer's result. -/
theorem stored_null_behaves_as_miss (st : CacheState)
    (now tSet defaultTTL : Int) (k : String) (e : CacheEntry) {σ ε : Type}
    (p : σ → Except ε Json × σ) (ps ps1 : σ) (v : Json) (ttl : Option Int)
    (hfile : fsLookup st.files (CacheManager.getCacheFilePath k) =
      some (FileData.entry e))
    (hlive : ¬(now - e.timestamp > e.ttl)) (hnull : e.data = Json.null)
    (hp : p ps = (Except.ok v, ps1)) :
    (CacheManager.get st now k).1 = Json.null ∧
    CacheManager.getOrSet defaultTTL st now tSet k p ps ttl =
      (Except.ok v, CacheManager.set defaultTTL st tSet k v ttl, ps1) := by
  have hg : CacheManager.get st now k = (Json.null, st) := by
    rw [get_entry st now k e.data e.timestamp e.ttl hfile, if_neg hlive, hnull]
  refine ⟨by rw [hg], ?_⟩
  rw [getOrSet_eq, hg]
  simp [Json.isNull, hp]

/-- C9 witness: a live entry storing `null` (written at 0, TTL 5000, read at
10) reads back as the `null` sentinel, and `getOrSet` runs its producer. -/
theorem stored_null_behaves_as_miss_witness :
    (CacheManager.get
        { files := [("k.json", FileData.entry
            { data := Json.null, timestamp := 0, ttl := 5000 })], meta := none }
        10 "k").1 = Json.null ∧
    CacheManager.getOrSet 300000
        { files := [("k.json", FileData.entry
            { data := Json.null, timestamp := 0, ttl := 5000 })], meta := none }
        10 10 "k"
        ((fun n => (Except.ok (Json.str "x"), n + 1)) : Nat → Except Unit Json × Nat)
        0 (some 5000) =
      (Except.ok (Json.str "x"),
       CacheManager.set 300000
         { files := [("k.json", FileData.entry
             { data := Json.null, timestamp := 0, ttl := 5000 })], meta := none }
         10 "k" (Json.str "x") (some 5000), 1) :=
  stored_null_behaves_as_miss
    { files := [("k.json", FileData.entry
        { data := Json.null, timestamp := 0, ttl := 5000 })], meta := none }
    10 10 300000 "k" { data := Json.null, timestamp := 0, ttl := 5000 }
    _ 0 1 (Json.str "x") (some 5000) rfl (by decide) rfl rfl

/-- C9 counterexample: `get` on a live entry storing `null` returns the very
value it returns on a key with no entry — the two results are equal, not
distinguishable — and `getOrSet` on that live entry invokes its producer
(the invocation counter moves from 0 to 1). -/
theorem stored_null_indistinguishable_cex :
    (let live : CacheState :=
       { files := [("k.json", FileData.entry
           { data := Json.null, timestamp := 0, ttl := 5000 })], meta := none }
     let emptySt : CacheState := { files := [], meta := none }
     (CacheManager.get live 10 "k").1 = (CacheManager.get emptySt 10 "k").1 ∧
     (CacheManager.getOrSet 300000 live 10 10 "k"
        ((fun n => (Except.ok Json.null, n + 1)) : Nat → Except Unit Json × Nat)
        0 (some 5000)).2.2 = 1 ∧ (1 : Nat) ≠ 0) :=
  ⟨rfl, rfl, by decide⟩


/-- C6 amended: `generateKey` depends on the parameter mapping only through
its `JSON.stringify` serialization — mappings with the same serialized form
(in particular the same key-value pairs in the same insertion order) always
yield the same key — but serialization follows insertion order, so mappings
with the same pairs in a different insertion order can yield different keys
(see the counterexample). -/
theorem generateCacheKey_respects_serialization (ns ident : String)
    (p q : List (String × Json))
    (h : Json.stringify (Json.obj p) = Json.stringify (Json.obj q)) :
    generateCacheKey ns ident (some p) = generateCacheKey ns ident (some q) := by
  unfold generateCacheKey
  simp only [Option.getD_some, Json.stringify, stringifyObj] at h ⊢
  rw [h]

/-- C6 witness: the concrete fetchTicker mapping, serialized identically,
yields the same key. -/
theorem generateCacheKey_respects_serialization_witness :
    generateCacheKey "tool" "fetchTicker"
      (some [("exchangeId", Json.str "binance"), ("symbol", Json.str "BTC/USDT")]) =
    generateCacheKey "tool" "fetchTicker"
      (some [("exchangeId", Json.str "binance"), ("symbol", Json.str "BTC/USDT")]) :=
  generateCacheKey_respects_serialization "tool" "fetchTicker"
    [("exchangeId", Json.str "binance"), ("symbol", Json.str "BTC/USDT")]
    [("exchangeId", Json.str "binance"), ("symbol", Json.str "BTC/USDT")] rfl

set_option maxRecDepth 10000

/-- C6 counterexample:
`generateKey("tool","fetchTicker",{exchangeId:"binance",symbol:"BTC/USDT"})`
yields different keys for the two insertion orders of the two parameters —
`JSON.stringify` serializes properties in insertion order and the SHA-256
digests of the two serializations differ. -/
theorem generateCacheKey_order_dependent_cex :
    generateCacheKey "tool" "fetchTicker"
      (some [("exchangeId", Json.str "binance"), ("symbol", Json.str "BTC/USDT")]) ≠
    generateCacheKey "tool" "fetchTicker"
      (some [("symbol", Json.str "BTC/USDT"), ("exchangeId", Json.str "binance")]) := by
  decide

/-- C7 amended: `cleanup` removes exactly the entry files that are unparsable
or whose TTL has lapsed (`now - createdAt > ttl`, strict), leaves every live
entry untouched, and counts the removals internally — but the count is only
logged (and observable through `getStats`): the method's return type is
`void`, so no count is returned to the caller. -/
theorem cleanup_removes_exactly_expired (st : CacheState) (now : Int) :
    (CacheManager.cleanup st now).state.files =
      st.files.filter (fun f => !CacheManager.cleanupRemoves now f) ∧
    (CacheManager.cleanup st now).deletedCount =
      (st.files.filter (CacheManager.cleanupRemoves now)).length ∧
    (CacheManager.cleanup st now).returned = none := by
  unfold CacheManager.cleanup
  rw [cleanupLoop_eq]
  refine ⟨?_, rfl, rfl⟩
  split <;> rfl

/-- C7 counterexample: with 3 lapsed and 2 live entries, `cleanup` deletes
exactly 3 and a subsequent `getStats().totalEntries` is 2, but the call
returns no value — in particular it does not return the count 3. -/
theorem cleanup_returns_no_count_cex :
    (let st : CacheState :=
       { files := [("a.json", FileData.entry
                     { data := Json.str "1", timestamp := 0, ttl := 5 }),
                   ("b.json", FileData.entry
                     { data := Json.str "2", timestamp := 0, ttl := 5 }),
                   ("c.json", FileData.entry
                     { data := Json.str "3", timestamp := 0, ttl := 5 }),
                   ("d.json", FileData.entry
                     { data := Json.str "4", timestamp := 0, ttl := 100000 }),
                   ("e.json", FileData.entry
                     { data := Json.str "5", timestamp := 0, ttl := 100000 })],
         meta := none }
     (CacheManager.cleanup st 1000).deletedCount = 3 ∧
     (CacheManager.getStats "/cache" 300000
        (CacheManager.cleanup st 1000).state).totalEntries = 2 ∧
     (CacheManager.cleanup st 1000).returned ≠ some 3) := by
  decide

/-- C8 amended: `clear` removes every entry file (every `.json` file other
than the metadata file), after which the entry count is 0, and counts the
removals internally — but the count is only logged: the method's return type
is `void`, so no count is returned to the caller. -/
theorem clear_removes_all_entry_files (st : CacheState) (now : Int) :
    (CacheManager.clear st now).state.files =
      st.files.filter (fun f => !CacheManager.isEntryFileName f.1) ∧
    (CacheManager.clear st now).deletedCount =
      (st.files.filter (fun f => CacheManager.isEntryFileName f.1)).length ∧
    (CacheManager.clear st now).returned = none ∧
    CacheManager.countEntryFiles (CacheManager.clear st now).state.files = 0 := by
  unfold CacheManager.clear
  rw [clearLoop_eq]
  refine ⟨rfl, rfl, rfl, ?_⟩
  show ((st.files.filter (fun f => !CacheManager.isEntryFileName f.1)).filter
      (fun f => CacheManager.isEntryFileName f.1)).length = 0
  rw [List.filter_filter]
  simp

/-- C8 counterexample: with 2 entries present, `clear` deletes both and a
subsequent `getStats().totalEntries` is 0, but the call returns no value —
in particular it does not return the count 2. -/
theorem clear_returns_no_count_cex :
    (let st : CacheState :=
       { files := [("d.json", FileData.entry
                     { data := Json.str "4", timestamp := 0, ttl := 100000 }),
                   ("e.json", FileData.entry
                     { data := Json.str "5", timestamp := 0, ttl := 100000 })],
         meta := none }
     (CacheManager.clear st 1000).deletedCount = 2 ∧
     (CacheManager.getStats "/cache" 300000
        (CacheManager.clear st 1000).state).totalEntries = 0 ∧
     (CacheManager.clear st 1000).returned ≠ some 2) := by
  decide

end CcxtMcp
